import Mathlib

/-!
Verification development for the PairwiseRepl repository.

The file shallowly embeds the parts of the code that carry the stated
properties:

* the snapshot capture route (server routes file, POST sessions snapshots),
* the WebSocket connection registry and message router (same file),
* the client restore controller (client session page, handleRestoreSnapshot).

JavaScript values are modelled as follows: a string is a Lean String, a
JSON object used as a path-to-content mapping is an association list in
insertion order, a JS Map is an association list in insertion order, a JS
Set is a duplicate-free list in insertion order, null and undefined are
Option.none, and JS string truthiness is the test against the empty string.
-/

/-- First-match association lookup, the behaviour of JS property access
on objects and of Map.get. -/
def assocLookup {α β : Type} [DecidableEq α] : List (α × β) → α → Option β
  | [], _ => none
  | (k, v) :: rest, key => if k = key then some v else assocLookup rest key

/-- JS String.prototype.split with a single-character separator, on the
character list of the string: split never returns an empty list, and
adjacent separators produce empty pieces. -/
def splitOnChar (sep : Char) : List Char → List (List Char)
  | [] => [[]]
  | c :: cs =>
    match splitOnChar sep cs with
    | [] => [[]]
    | l :: ls => if c = sep then [] :: l :: ls else (c :: l) :: ls

/-- content.split with the newline separator, then .length: the line count
used throughout the snapshot capture route. -/
def lineCount (s : String) : Nat := (splitOnChar '\n' s.data).length

/-- A JSON value that can sit in a files object of a snapshot diff: either
a content string (current shape) or a legacy {path, content} object entry. -/
inductive JVal where
  | str (s : String)
  | obj (path content : String)
deriving DecidableEq

/-- A legacy files entry: a {path, content} object as the older session
page sends and as the legacy stored shape holds. -/
structure LegacyFile where
  path : String
  content : String
deriving DecidableEq

/-- The two request shapes the capture route can receive in diff.files:
the current path-to-content record or the legacy array of {path, content}. -/
inductive FilesInput where
  | record (entries : List (String × String))
  | legacyArr (entries : List LegacyFile)
deriving DecidableEq

/-- A path-to-content record viewed as JS object entries. -/
def strEntries (l : List (String × String)) : List (String × JVal) :=
  l.map (fun e => (e.1, JVal.str e.2))

/-- Object.entries of a JS array: the numeric indices as string keys, in
order, with the element objects as values. -/
def arrayEntriesFrom (i : Nat) : List LegacyFile → List (String × JVal)
  | [] => []
  | f :: fs => (toString i, JVal.obj f.path f.content) :: arrayEntriesFrom (i + 1) fs

/-- Object.entries of the value found at diff.files: for a record the
path keyed entries, for an array the numeric indices as string keys with
the element objects as values. -/
def jsEntriesOf : FilesInput → List (String × JVal)
  | .record l => strEntries l
  | .legacyArr fs => arrayEntriesFrom 0 fs

/-- prevFiles[path] followed by the or-empty-string default and the typeof
string test, then split: the previous line count the capture route uses
inside its first loop. An absent path and an empty string both yield the
one-line empty string; a non string value yields zero. -/
def prevLinesAt (prevFiles : List (String × JVal)) (p : String) : Nat :=
  match assocLookup prevFiles p with
  | some (.str s) => lineCount s
  | some (.obj _ _) => 0
  | none => lineCount ("")

/-- First loop of the capture route: over the entries of the submitted
files object, the cast of the value to string, its line count, and the
absolute difference with the previous line count. A non string value makes
the cast call split on a non string, which throws; the loop then aborts,
modelled by none. -/
def captureLoop1 (prevFiles : List (String × JVal)) : List (String × JVal) → Option Nat
  | [] => some 0
  | (p, .str c) :: rest =>
    (captureLoop1 prevFiles rest).map
      (fun r => Int.natAbs ((lineCount c : Int) - (prevLinesAt prevFiles p : Int)) + r)
  | (_, .obj _ _) :: _ => none

/-- JS truthiness of filesData[path]: false for an absent key and for the
empty string, true for a nonempty string and for an object. -/
def jsTruthyAt (filesData : List (String × JVal)) (p : String) : Bool :=
  match assocLookup filesData p with
  | none => false
  | some (.str s) => decide (s ≠ (""))
  | some (.obj _ _) => true

/-- Second loop of the capture route: over the entries of the previous
files object, every entry whose key is falsy in the submitted files object
contributes its line count when its value is a string, else zero. -/
def captureLoop2 (filesData : List (String × JVal)) : List (String × JVal) → Nat
  | [] => 0
  | (p, v) :: rest =>
    (if jsTruthyAt filesData p then 0
     else match v with
          | .str s => lineCount s
          | .obj _ _ => 0)
    + captureLoop2 filesData rest

/-- First-snapshot branch of the capture route: Object.values reduced by
adding the line count of every string value and zero for any other value. -/
def firstCaptureLines : List (String × JVal) → Nat
  | [] => 0
  | (_, v) :: rest =>
    (match v with
     | .str s => lineCount s
     | .obj _ _ => 0)
    + firstCaptureLines rest

/-- The metadata record the capture route emits. -/
structure SnapshotMetadataRec where
  linesChanged : Nat
  filesModified : List String
deriving DecidableEq

/-- The snapshot capture metadata computation of the POST snapshots route:
filesModified is Object.keys of the submitted files object; linesChanged
follows the two loops when a previous snapshot exists and the reduce over
values otherwise; none models the route throwing inside the first loop. -/
def snapshotCaptureMetadata (prevFiles : Option (List (String × JVal)))
    (filesData : List (String × JVal)) : Option SnapshotMetadataRec :=
  match prevFiles with
  | some pf =>
    (captureLoop1 pf filesData).map
      (fun l1 => ⟨l1 + captureLoop2 filesData pf, filesData.map Prod.fst⟩)
  | none => some ⟨firstCaptureLines filesData, filesData.map Prod.fst⟩

/-- Modelled from the spec: the reference algorithm of the Snapshot Engine
section, steps one to four, over path-to-content File Sets. Present in
both sets: absolute line difference. Present only in the new set: full
line count. Present only in the previous set: full previous line count.
No previous File Set: sum of all line counts. filesModified: the paths of
the new File Set. -/
def specLinesChanged (prevFiles newFiles : List (String × String)) : Nat :=
  (newFiles.map (fun e =>
     match assocLookup prevFiles e.1 with
     | some pc => Int.natAbs ((lineCount e.2 : Int) - (lineCount pc : Int))
     | none => lineCount e.2)).sum
  + (prevFiles.map (fun e =>
     match assocLookup newFiles e.1 with
     | some _ => 0
     | none => lineCount e.2)).sum

/-- Modelled from the spec: the full reference metadata of the Snapshot
Engine section. -/
def specSnapshotMetadata (prevFiles : Option (List (String × String)))
    (newFiles : List (String × String)) : SnapshotMetadataRec :=
  match prevFiles with
  | some pf => ⟨specLinesChanged pf newFiles, newFiles.map Prod.fst⟩
  | none => ⟨(newFiles.map (fun e => lineCount e.2)).sum, newFiles.map Prod.fst⟩

/-- The amended reference line delta: a path present only in the new set
is compared against the empty string default, which counts one line; a
path of the previous set counts as removed whenever its content in the
new set is falsy, that is absent or the empty string. -/
def amendedLinesChanged (prevFiles newFiles : List (String × String)) : Nat :=
  (newFiles.map (fun e =>
     Int.natAbs ((lineCount e.2 : Int)
       - (lineCount ((assocLookup prevFiles e.1).getD ("")) : Int)))).sum
  + (prevFiles.map (fun e =>
     match assocLookup newFiles e.1 with
     | some c => if c = ("") then lineCount e.2 else 0
     | none => lineCount e.2)).sum

/-!
The WebSocket connection registry and message router of the routes file:
the activeConnections Map from session id to Set of sockets, the closure
variables currentSessionId and userId of each connection handler, the
broadcast helper, and the switch over inbound message kinds. Connections
are identified by Nat. The delivery log records every send the broadcast
helper performs, in order, as recipient and message pairs. A socket is
OPEN until its close event is processed. Date.now() is an argument of
each event.
-/

/-- The closure variables of one connection handler. -/
structure ConnVars where
  currentSessionId : Option String
  userId : Option String
deriving DecidableEq

/-- A wire message the server broadcasts to session peers. -/
inductive WireMsg where
  | participantJoined (userId : Option String) (timestamp : Nat)
  | editorChange (userId : Option String) (code filePath : String) (timestamp : Nat)
  | cursorMove (userId : Option String) (position filePath : String) (timestamp : Nat)
  | participantLeft (userId : Option String) (timestamp : Nat)
deriving DecidableEq

/-- The server state shared by all connection handlers, plus the delivery
log and the set of sockets whose transport has closed. -/
structure ServerState where
  activeConnections : List (String × List Nat)
  connVars : List (Nat × ConnVars)
  closedConns : List Nat
  log : List (Nat × WireMsg)
deriving DecidableEq

def initServerState : ServerState := ⟨[], [], [], []⟩

/-- JS truthiness of a string-or-null value. -/
def truthyOpt : Option String → Bool
  | none => false
  | some s => decide (s ≠ (""))

def getVars (st : ServerState) (c : Nat) : ConnVars :=
  (assocLookup st.connVars c).getD ⟨none, none⟩

def setVars (st : ServerState) (c : Nat) (v : ConnVars) : ServerState :=
  { st with connVars := (c, v) :: st.connVars }

/-- Replace the value of every entry with the given key, in place. -/
def regSetEntries (sid : String) (v : List Nat) :
    List (String × List Nat) → List (String × List Nat)
  | [] => []
  | (k, w) :: rest =>
    (if k = sid then (sid, v) else (k, w)) :: regSetEntries sid v rest

/-- Map.set: replace the value of an existing key in place, else append. -/
def regSet (reg : List (String × List Nat)) (sid : String) (v : List Nat) :
    List (String × List Nat) :=
  if (assocLookup reg sid).isSome then regSetEntries sid v reg
  else reg ++ [(sid, v)]

/-- Map.delete: drop the entries with the given key, keep the rest in
order. -/
def regDelete : List (String × List Nat) → String → List (String × List Nat)
  | [], _ => []
  | (k, w) :: rest, sid =>
    if k = sid then regDelete rest sid else (k, w) :: regDelete rest sid

/-- Set.add: append unless already a member. -/
def setAdd (l : List Nat) (c : Nat) : List Nat :=
  if c ∈ l then l else l ++ [c]

/-- Set.delete: drop the member, keep the rest in order. -/
def setDel : List Nat → Nat → List Nat
  | [], _ => []
  | x :: rest, c => if x = c then setDel rest c else x :: setDel rest c

/-- readyState OPEN: the close event of the socket has not been processed. -/
def isOpen (st : ServerState) (c : Nat) : Bool :=
  !(decide (c ∈ st.closedConns))

/-- The sends one call of the broadcast helper performs: every member of
the session group that is not the excluded socket and whose readyState is
OPEN, in group order; empty when no group exists. -/
def broadcastDeliveries (st : ServerState) (sid : String) (m : WireMsg)
    (exclude : Option Nat) : List (Nat × WireMsg) :=
  match assocLookup st.activeConnections sid with
  | none => []
  | some conns =>
    (conns.filter (fun cc => decide (some cc ≠ exclude) && isOpen st cc)).map
      (fun cc => (cc, m))

/-- The broadcast helper of the routes file: an early return when no group
exists for the session id, otherwise a send to every group member except
the excluded one whose readyState is OPEN. -/
def broadcast (st : ServerState) (sid : String) (m : WireMsg)
    (exclude : Option Nat) : ServerState :=
  match assocLookup st.activeConnections sid with
  | none => st
  | some conns =>
    { st with log := st.log ++
        ((conns.filter (fun cc => decide (some cc ≠ exclude) && isOpen st cc)).map
          (fun cc => (cc, m))) }

/-- An inbound client message, after JSON parsing, keyed by its type
discriminator; malformed covers a payload whose parse or dispatch throws
or whose type is unknown. -/
inductive ClientMsg where
  | joinSession (sessionId : Option String) (userId : Option String)
  | editorChange (code filePath : String)
  | cursorMove (position filePath : String)
  | leaveSession
  | malformed
deriving DecidableEq

/-- A connection event the router processes: an inbound message or the
transport close callback, each carrying the Date.now() value. -/
inductive Event where
  | message (conn : Nat) (msg : ClientMsg) (time : Nat)
  | close (conn : Nat) (time : Nat)
deriving DecidableEq

/-- The userId closure variable set by join-session: the message field
with the anonymous fallback on a falsy value. -/
def joinUserId (uid : Option String) : String :=
  match uid with
  | some u => if u = ("") then ("anonymous") else u
  | none => ("anonymous")

/-- The registry effect of the join-session case: create the group when
the session id has no entry, then Set.add the socket to the entry. -/
def joinRegister (reg : List (String × List Nat)) (s : String) (c : Nat) :
    List (String × List Nat) :=
  let reg1 := if (assocLookup reg s).isSome then reg else regSet reg s []
  regSet reg1 s (setAdd ((assocLookup reg1 s).getD []) c)

/-- The registry removal block that appears verbatim in both the
leave-session case and the close callback: when a group exists for the
session id, Set.delete the socket and delete the group entry when its
size became zero. -/
def leaveRemove (reg : List (String × List Nat)) (s : String) (c : Nat) :
    List (String × List Nat) :=
  match assocLookup reg s with
  | some conns =>
    if (setDel conns c).length = 0 then regDelete reg s
    else regSet reg s (setDel conns c)
  | none => reg

/-- Apply the join registry effect to a state. -/
def joinFinish (st : ServerState) (s : String) (c : Nat) : ServerState :=
  { st with activeConnections := joinRegister st.activeConnections s c }

/-- Apply the removal block of leave and close to a state. -/
def leaveFinish (st : ServerState) (s : String) (c : Nat) : ServerState :=
  { st with activeConnections := leaveRemove st.activeConnections s c }

/-- The join-session case: set the closure variables, register the socket
in the Connection Registry when the session id is truthy, and broadcast
participant-joined excluding self. -/
def handleJoinSession (st : ServerState) (c : Nat) (sid uid : Option String)
    (t : Nat) : ServerState :=
  match sid with
  | some s =>
    if s = ("") then setVars st c ⟨some s, some (joinUserId uid)⟩
    else
      broadcast (joinFinish (setVars st c ⟨some s, some (joinUserId uid)⟩) s c) s
        (.participantJoined (some (joinUserId uid)) t) (some c)
  | none => setVars st c ⟨none, some (joinUserId uid)⟩

/-- The editor-change case: broadcast to peers excluding self when the
connection has a truthy current session id, else fall through. -/
def handleEditorChange (st : ServerState) (c : Nat) (code filePath : String)
    (t : Nat) : ServerState :=
  match (getVars st c).currentSessionId with
  | some s =>
    if s = ("") then st
    else broadcast st s (.editorChange (getVars st c).userId code filePath t) (some c)
  | none => st

/-- The cursor-move case, identical in structure to editor-change. -/
def handleCursorMove (st : ServerState) (c : Nat) (position filePath : String)
    (t : Nat) : ServerState :=
  match (getVars st c).currentSessionId with
  | some s =>
    if s = ("") then st
    else broadcast st s (.cursorMove (getVars st c).userId position filePath t) (some c)
  | none => st

/-- The leave-session case before the unconditional clearing of the
closure variables: when the current session id is truthy, broadcast
participant-left excluding self, then run the registry removal block. -/
def leaveCore (st : ServerState) (c : Nat) (t : Nat) : ServerState :=
  match (getVars st c).currentSessionId with
  | some s =>
    if s = ("") then st
    else
      leaveFinish (broadcast st s (.participantLeft (getVars st c).userId t) (some c)) s c
  | none => st

/-- The leave-session case: the core, then both closure variables are
cleared unconditionally. -/
def handleLeaveSession (st : ServerState) (c : Nat) (t : Nat) : ServerState :=
  setVars (leaveCore st c t) c ⟨none, none⟩

/-- Mark the transport of a socket as closed (readyState leaves OPEN). -/
def markClosed (st : ServerState) (c : Nat) : ServerState :=
  { st with closedConns :=
    if c ∈ st.closedConns then st.closedConns else st.closedConns ++ [c] }

/-- The close callback: the transport is closed; when both closure
variables are truthy, run the registry removal block, then broadcast
participant-left excluding self. The closure variables are not cleared. -/
def handleClose (st : ServerState) (c : Nat) (t : Nat) : ServerState :=
  match (getVars st c).currentSessionId with
  | none => markClosed st c
  | some s =>
    if s = ("") then markClosed st c
    else
      match (getVars st c).userId with
      | none => markClosed st c
      | some u =>
        if u = ("") then markClosed st c
        else
          broadcast (leaveFinish (markClosed st c) s c) s
            (.participantLeft (some u) t) (some c)

/-- One step of the router: the switch over the message type, plus the
close callback; an unknown or malformed message falls through the switch. -/
def step (st : ServerState) : Event → ServerState
  | .message c (.joinSession sid uid) t => handleJoinSession st c sid uid t
  | .message c (.editorChange code fp) t => handleEditorChange st c code fp t
  | .message c (.cursorMove pos fp) t => handleCursorMove st c pos fp t
  | .message c .leaveSession t => handleLeaveSession st c t
  | .message _ .malformed _ => st
  | .close c t => handleClose st c t

/-- Process a sequence of connection events from a state. -/
def runEvents (st : ServerState) (evs : List Event) : ServerState :=
  evs.foldl step st

/-- The group of a session id: the registry entry, or empty when absent. -/
def groupOf (st : ServerState) (sid : String) : List Nat :=
  (assocLookup st.activeConnections sid).getD []

/-- Whether a session id is a key of the registry map. -/
def regHas (st : ServerState) (sid : String) : Bool :=
  (assocLookup st.activeConnections sid).isSome

/-!
The client restore controller: handleRestoreSnapshot of the session page.
The fetch outcome, the diff.files normalization over both stored shapes,
the empty check, and the three state setters are modelled; the success
and destructive toasts are the two outcome constructors.
-/

/-- A normalized file entry produced by handleRestoreSnapshot: name, path,
the literal file type tag, and content. -/
structure RestoredFile where
  name : String
  path : String
  ftype : String
  content : String
deriving DecidableEq

/-- The diff.files field of a stored snapshot: absent or falsy, the legacy
array of {path, content} objects, or the current path-to-content record. -/
inductive DiffFiles where
  | absent
  | legacy (entries : List LegacyFile)
  | record (entries : List (String × String))
deriving DecidableEq

/-- file.path.split on slash, .pop(), with the or-path fallback when the
last piece is the empty string. -/
def fileName (path : String) : String :=
  let last := (splitOnChar '/' path.data).getLastD []
  if last = [] then path else String.mk last

/-- The normalization of diff.files inside handleRestoreSnapshot: both
shapes map to the same {name, path, type, content} records; a missing or
falsy files field normalizes to the empty list. -/
def filesFromSnapshot : DiffFiles → List RestoredFile
  | .absent => []
  | .legacy fs => fs.map (fun f => ⟨fileName f.path, f.path, ("file"), f.content⟩)
  | .record es => es.map (fun e => ⟨fileName e.1, e.1, ("file"), e.2⟩)

/-- The client view state handleRestoreSnapshot can touch. -/
structure ViewState where
  isViewingSnapshot : Bool
  snapshotFiles : List RestoredFile
  currentSnapshotId : Option String
deriving DecidableEq

/-- The stored snapshot as the fetch returns it, reduced to the fields
handleRestoreSnapshot reads. -/
structure SnapshotRecord where
  diffFiles : DiffFiles
  timestamp : Nat
deriving DecidableEq

/-- The outcome of the snapshot fetch. -/
inductive FetchResult where
  | httpError (status : Nat) (statusText : String)
  | ok (snap : SnapshotRecord)
deriving DecidableEq

/-- The user visible outcome of a restore call: the success toast or the
destructive error toast with its message. -/
inductive RestoreOutcome where
  | loaded (timestamp : Nat)
  | failed (message : String)
deriving DecidableEq

def RestoreOutcome.isFailed : RestoreOutcome → Bool
  | .failed _ => true
  | .loaded _ => false

/-- handleRestoreSnapshot: a non OK response throws and is caught as a
destructive toast; an empty normalized file list throws the no-files
error; otherwise the three setters switch the view to the read-only
snapshot and the success toast fires. -/
def handleRestoreSnapshot (resp : FetchResult) (snapshotId : String)
    (st : ViewState) : ViewState × RestoreOutcome :=
  match resp with
  | .httpError status statusText =>
    (st, .failed ((("HTTP ") ++ toString status ++ (": ")) ++ statusText))
  | .ok snap =>
    let filesFS := filesFromSnapshot snap.diffFiles
    if filesFS.length = 0 then
      (st, .failed ("Snapshot has no files"))
    else
      (⟨true, filesFS, some snapshotId⟩, .loaded snap.timestamp)

/-!
General helper lemmas.
-/

theorem map_congr_fn {α β : Type} {f g : α → β} :
    ∀ l : List α, (∀ a ∈ l, f a = g a) → l.map f = l.map g := by
  intro l
  induction l with
  | nil => intro _; rfl
  | cons a t ih =>
    intro h
    simp only [List.map_cons]
    rw [h a (by simp), ih (fun x hx => h x (by simp [hx]))]

theorem strEntries_nil : strEntries [] = [] := rfl

theorem strEntries_cons (e : String × String) (t : List (String × String)) :
    strEntries (e :: t) = (e.1, JVal.str e.2) :: strEntries t := rfl

theorem strEntries_keys (l : List (String × String)) :
    (strEntries l).map Prod.fst = l.map Prod.fst := by
  induction l with
  | nil => rfl
  | cons e t ih => simp only [strEntries_cons, List.map_cons, ih]

theorem assocLookup_strEntries (pf : List (String × String)) (p : String) :
    assocLookup (strEntries pf) p = (assocLookup pf p).map JVal.str := by
  induction pf with
  | nil => rfl
  | cons e t ih =>
    rw [strEntries_cons]
    simp only [assocLookup]
    by_cases h : e.1 = p
    · simp [h]
    · simp [h, ih]

theorem prevLinesAt_strEntries (pf : List (String × String)) (p : String) :
    prevLinesAt (strEntries pf) p = lineCount ((assocLookup pf p).getD ("")) := by
  unfold prevLinesAt
  rw [assocLookup_strEntries]
  cases assocLookup pf p <;> rfl

theorem jsTruthyAt_strEntries (nf : List (String × String)) (p : String) :
    jsTruthyAt (strEntries nf) p
      = match assocLookup nf p with
        | none => false
        | some s => decide (s ≠ ("")) := by
  unfold jsTruthyAt
  rw [assocLookup_strEntries]
  cases assocLookup nf p <;> rfl

theorem captureLoop1_strEntries (pf : List (String × String)) :
    ∀ nf : List (String × String),
      captureLoop1 (strEntries pf) (strEntries nf)
        = some ((nf.map (fun e =>
            Int.natAbs ((lineCount e.2 : Int)
              - (lineCount ((assocLookup pf e.1).getD ("")) : Int)))).sum) := by
  intro nf
  induction nf with
  | nil => rfl
  | cons e t ih =>
    rw [strEntries_cons]
    simp only [captureLoop1, ih, Option.map_some', List.map_cons, List.sum_cons,
      prevLinesAt_strEntries]

theorem captureLoop2_strEntries (nf : List (String × String)) :
    ∀ pf : List (String × String),
      captureLoop2 (strEntries nf) (strEntries pf)
        = (pf.map (fun e =>
            match assocLookup nf e.1 with
            | some c => if c = ("") then lineCount e.2 else 0
            | none => lineCount e.2)).sum := by
  intro pf
  induction pf with
  | nil => rfl
  | cons e t ih =>
    rw [strEntries_cons]
    simp only [captureLoop2, ih, List.map_cons, List.sum_cons, jsTruthyAt_strEntries]
    cases h : assocLookup nf e.1 with
    | none => simp
    | some c =>
      by_cases hc : c = ("")
      · simp [hc]
      · simp [hc]

theorem firstCaptureLines_strEntries (nf : List (String × String)) :
    firstCaptureLines (strEntries nf) = (nf.map (fun e => lineCount e.2)).sum := by
  induction nf with
  | nil => rfl
  | cons e t ih =>
    rw [strEntries_cons]
    simp only [firstCaptureLines, ih, List.map_cons, List.sum_cons]

theorem arrayEntriesFrom_keys (fs : List LegacyFile) :
    ∀ i : Nat, (arrayEntriesFrom i fs).map Prod.fst
      = (List.range fs.length).map (fun k => toString (i + k)) := by
  induction fs with
  | nil => intro i; rfl
  | cons f t ih =>
    intro i
    simp only [arrayEntriesFrom, List.map_cons, List.length_cons,
      List.range_succ_eq_map, List.map_map]
    rw [ih (i + 1)]
    congr 1
    apply map_congr_fn
    intro a _
    have h2 : i + 1 + a = i + (a + 1) := by omega
    simp [h2]

theorem arrayEntriesFrom_lines_zero (fs : List LegacyFile) :
    ∀ i : Nat, firstCaptureLines (arrayEntriesFrom i fs) = 0 := by
  induction fs with
  | nil => intro i; rfl
  | cons f t ih =>
    intro i
    simp only [arrayEntriesFrom, firstCaptureLines, ih (i + 1)]

/-!
Claim C1.
-/

/-- C1 counterexample: with previous File Set a.ts two lines and new File
Set a.ts emptied to the empty string plus a wholly added two-line b.ts,
the capture route computes linesChanged four while the reference
algorithm of the spec computes three, so the emitted metadata differs
from the reference metadata at this input. -/
theorem snapshot_capture_differs_from_spec_reference :
    snapshotCaptureMetadata (some (strEntries [(("a.ts"), ("x\ny"))]))
        (strEntries [(("a.ts"), ("")), (("b.ts"), ("p\nq"))])
      ≠ some (specSnapshotMetadata (some [(("a.ts"), ("x\ny"))])
        [(("a.ts"), ("")), (("b.ts"), ("p\nq"))]) := by decide

/-- C1 amended: for every snapshot capture over path-to-content File
Sets, filesModified is exactly the paths of the new File Set, and
linesChanged is: when a previous File Set exists, the sum over new paths
of the absolute difference between the current line count and the
previous line count - where a path absent from the previous set defaults
to the empty string, which counts one line - plus the previous line count
of every previous path whose content in the new set is falsy, that is
absent or the empty string; when there is no previous File Set, the sum
of line counts of all files in the new set. -/
theorem snapshot_capture_metadata_amended (pf nf : List (String × String)) :
    snapshotCaptureMetadata (some (strEntries pf)) (strEntries nf)
      = some ⟨amendedLinesChanged pf nf, nf.map Prod.fst⟩
  ∧ snapshotCaptureMetadata none (strEntries nf)
      = some ⟨(nf.map (fun e => lineCount e.2)).sum, nf.map Prod.fst⟩ := by
  constructor
  · simp only [snapshotCaptureMetadata, captureLoop1_strEntries, Option.map_some',
      captureLoop2_strEntries, strEntries_keys, amendedLinesChanged]
  · simp only [snapshotCaptureMetadata, firstCaptureLines_strEntries, strEntries_keys]

/-!
Claim C10.
-/

/-- C10: when the File Set submitted to snapshot capture is the legacy
array of {path, content} objects and the session has no previous
snapshot, the capture computes metadata whose filesModified is the list
of numeric array indices as strings and whose linesChanged is zero. -/
theorem legacy_first_capture_degenerate (fs : List LegacyFile) :
    snapshotCaptureMetadata none (jsEntriesOf (.legacyArr fs))
      = some ⟨0, (List.range fs.length).map (fun i => toString i)⟩ := by
  have hk : List.map (fun k => toString (0 + k)) (List.range fs.length)
      = List.map (fun i => toString i) (List.range fs.length) := by
    apply map_congr_fn
    intro a _
    simp
  simp only [jsEntriesOf, snapshotCaptureMetadata, arrayEntriesFrom_lines_zero]
  rw [arrayEntriesFrom_keys, hk]

/-!
Claims C6, C7 and C9.
-/

/-- C7: read-side normalization is shape independent: a legacy-shaped
files field and a current-shaped files field holding the same
path-to-content pairs normalize to identical file lists. -/
theorem normalization_shape_independent (fs : List LegacyFile) :
    filesFromSnapshot (.legacy fs)
      = filesFromSnapshot (.record (fs.map (fun f => (f.path, f.content)))) := by
  simp only [filesFromSnapshot, List.map_map]
  rfl

/-- C6: restoring a snapshot whose normalized File Set is empty fails
with the descriptive no-files error surfaced to the caller and leaves the
view state untouched, never switching to an empty read-only editor. -/
theorem restore_empty_snapshot_fails (snap : SnapshotRecord) (snapshotId : String)
    (st : ViewState) (h : filesFromSnapshot snap.diffFiles = []) :
    handleRestoreSnapshot (.ok snap) snapshotId st
      = (st, .failed ("Snapshot has no files")) := by
  simp [handleRestoreSnapshot, h]

/-- C6 witness: a stored snapshot with a missing files field restores to
the unchanged state and the no-files error. -/
theorem restore_empty_snapshot_fails_witness :
    handleRestoreSnapshot (.ok ⟨.absent, 5⟩) ("snap-1") ⟨false, [], none⟩
      = (⟨false, [], none⟩, .failed ("Snapshot has no files")) :=
  restore_empty_snapshot_fails ⟨.absent, 5⟩ ("snap-1") ⟨false, [], none⟩ rfl

/-- C9: every failing restore call - a non OK fetch or an empty
normalized File Set - leaves the whole client view state unchanged: the
viewing flag, the historical file list and the recorded current snapshot
id keep their prior values. -/
theorem restore_failure_preserves_view_state (resp : FetchResult) (snapshotId : String)
    (st : ViewState) (h : (handleRestoreSnapshot resp snapshotId st).2.isFailed = true) :
    (handleRestoreSnapshot resp snapshotId st).1 = st := by
  cases resp with
  | httpError a b => rfl
  | ok snap =>
    by_cases hf : (filesFromSnapshot snap.diffFiles).length = 0
    · simp [handleRestoreSnapshot, hf]
    · exfalso
      simp [handleRestoreSnapshot, hf, RestoreOutcome.isFailed] at h

/-- C9 witness: a 404 fetch leaves a historical view state unchanged. -/
theorem restore_failure_preserves_view_state_witness :
    (handleRestoreSnapshot (.httpError 404 ("Not Found")) ("snap-2")
        ⟨true, [⟨("a.ts"), ("a.ts"), ("file"), ("x")⟩], some ("old")⟩).1
      = ⟨true, [⟨("a.ts"), ("a.ts"), ("file"), ("x")⟩], some ("old")⟩ :=
  restore_failure_preserves_view_state (.httpError 404 ("Not Found")) ("snap-2")
    ⟨true, [⟨("a.ts"), ("a.ts"), ("file"), ("x")⟩], some ("old")⟩ (by decide)



/-!
Registry and state helper lemmas.
-/

theorem assocLookup_regSetEntries_self (sid : String) (v : List Nat) :
    ∀ reg : List (String × List Nat), (assocLookup reg sid).isSome = true →
      assocLookup (regSetEntries sid v reg) sid = some v := by
  intro reg
  induction reg with
  | nil => intro h; simp [assocLookup] at h
  | cons e t ih =>
    intro h
    obtain ⟨a, b⟩ := e
    by_cases ha : a = sid
    · rw [regSetEntries, if_pos ha]
      simp [assocLookup]
    · rw [regSetEntries, if_neg ha]
      rw [assocLookup, if_neg ha]
      rw [assocLookup, if_neg ha] at h
      exact ih h

theorem assocLookup_appendNew (sid : String) (v : List Nat) :
    ∀ reg : List (String × List Nat), assocLookup reg sid = none →
      assocLookup (reg ++ [(sid, v)]) sid = some v := by
  intro reg
  induction reg with
  | nil => intro _; simp [assocLookup]
  | cons e t ih =>
    intro h
    obtain ⟨a, b⟩ := e
    by_cases ha : a = sid
    · rw [assocLookup, if_pos ha] at h
      cases h
    · rw [assocLookup, if_neg ha] at h
      rw [List.cons_append, assocLookup, if_neg ha]
      exact ih h

theorem assocLookup_regSet_self (reg : List (String × List Nat)) (sid : String)
    (v : List Nat) : assocLookup (regSet reg sid v) sid = some v := by
  unfold regSet
  by_cases h : (assocLookup reg sid).isSome = true
  · rw [if_pos h]
    exact assocLookup_regSetEntries_self sid v reg h
  · rw [if_neg h]
    exact assocLookup_appendNew sid v reg (by
      cases hx : assocLookup reg sid
      · rfl
      · rw [hx] at h; simp at h)

theorem assocLookup_regSetEntries_ne (sid sid2 : String) (v : List Nat) (h : sid2 ≠ sid) :
    ∀ reg : List (String × List Nat),
      assocLookup (regSetEntries sid v reg) sid2 = assocLookup reg sid2 := by
  intro reg
  induction reg with
  | nil => rfl
  | cons e t ih =>
    obtain ⟨a, b⟩ := e
    by_cases ha : a = sid
    · subst ha
      have hne : ¬ (a = sid2) := fun hh => h hh.symm
      rw [regSetEntries, if_pos rfl]
      rw [assocLookup, if_neg hne]
      rw [assocLookup, if_neg hne]
      exact ih
    · rw [regSetEntries, if_neg ha]
      rw [assocLookup]
      rw [assocLookup]
      by_cases h2 : a = sid2
      · rw [if_pos h2, if_pos h2]
      · rw [if_neg h2, if_neg h2]
        exact ih

theorem assocLookup_appendNe (sid sid2 : String) (v : List Nat) (h : sid2 ≠ sid) :
    ∀ reg : List (String × List Nat),
      assocLookup (reg ++ [(sid, v)]) sid2 = assocLookup reg sid2 := by
  intro reg
  induction reg with
  | nil =>
    have hne : ¬ (sid = sid2) := fun hh => h hh.symm
    simp [assocLookup, hne]
  | cons e t ih =>
    obtain ⟨a, b⟩ := e
    rw [List.cons_append, assocLookup, assocLookup]
    by_cases h2 : a = sid2
    · rw [if_pos h2, if_pos h2]
    · rw [if_neg h2, if_neg h2]
      exact ih

theorem assocLookup_regSet_ne (reg : List (String × List Nat)) (sid sid2 : String)
    (v : List Nat) (h : sid2 ≠ sid) :
    assocLookup (regSet reg sid v) sid2 = assocLookup reg sid2 := by
  unfold regSet
  by_cases hs : (assocLookup reg sid).isSome = true
  · rw [if_pos hs]
    exact assocLookup_regSetEntries_ne sid sid2 v h reg
  · rw [if_neg hs]
    exact assocLookup_appendNe sid sid2 v h reg

theorem assocLookup_regDelete_self (sid : String) :
    ∀ reg : List (String × List Nat), assocLookup (regDelete reg sid) sid = none := by
  intro reg
  induction reg with
  | nil => rfl
  | cons e t ih =>
    obtain ⟨a, b⟩ := e
    by_cases ha : a = sid
    · rw [regDelete, if_pos ha]
      exact ih
    · rw [regDelete, if_neg ha, assocLookup, if_neg ha]
      exact ih

theorem assocLookup_regDelete_ne (sid sid2 : String) (h : sid2 ≠ sid) :
    ∀ reg : List (String × List Nat),
      assocLookup (regDelete reg sid) sid2 = assocLookup reg sid2 := by
  intro reg
  induction reg with
  | nil => rfl
  | cons e t ih =>
    obtain ⟨a, b⟩ := e
    by_cases ha : a = sid
    · subst ha
      have hne : ¬ (a = sid2) := fun hh => h hh.symm
      rw [regDelete, if_pos rfl, assocLookup, if_neg hne]
      exact ih
    · rw [regDelete, if_neg ha, assocLookup, assocLookup]
      by_cases h2 : a = sid2
      · rw [if_pos h2, if_pos h2]
      · rw [if_neg h2, if_neg h2]
        exact ih

theorem broadcast_activeConnections (st : ServerState) (sid : String) (m : WireMsg)
    (ex : Option Nat) : (broadcast st sid m ex).activeConnections = st.activeConnections := by
  unfold broadcast
  cases assocLookup st.activeConnections sid <;> rfl

theorem broadcast_connVars (st : ServerState) (sid : String) (m : WireMsg)
    (ex : Option Nat) : (broadcast st sid m ex).connVars = st.connVars := by
  unfold broadcast
  cases assocLookup st.activeConnections sid <;> rfl

theorem broadcast_closedConns (st : ServerState) (sid : String) (m : WireMsg)
    (ex : Option Nat) : (broadcast st sid m ex).closedConns = st.closedConns := by
  unfold broadcast
  cases assocLookup st.activeConnections sid <;> rfl

theorem broadcast_log (st : ServerState) (sid : String) (m : WireMsg) (ex : Option Nat) :
    (broadcast st sid m ex).log = st.log ++ broadcastDeliveries st sid m ex := by
  unfold broadcast broadcastDeliveries
  cases assocLookup st.activeConnections sid
  · simp
  · rfl

theorem getVars_setVars_self (st : ServerState) (c : Nat) (v : ConnVars) :
    getVars (setVars st c v) c = v := by
  simp [getVars, setVars, assocLookup]

theorem getVars_setVars_ne (st : ServerState) (c c2 : Nat) (v : ConnVars) (h : c2 ≠ c) :
    getVars (setVars st c v) c2 = getVars st c2 := by
  have hne : ¬ (c = c2) := fun hh => h hh.symm
  simp [getVars, setVars, assocLookup, hne]

theorem setVars_activeConnections (st : ServerState) (c : Nat) (v : ConnVars) :
    (setVars st c v).activeConnections = st.activeConnections := rfl

theorem setVars_closedConns (st : ServerState) (c : Nat) (v : ConnVars) :
    (setVars st c v).closedConns = st.closedConns := rfl

theorem setVars_log (st : ServerState) (c : Nat) (v : ConnVars) :
    (setVars st c v).log = st.log := rfl

theorem markClosed_activeConnections (st : ServerState) (c : Nat) :
    (markClosed st c).activeConnections = st.activeConnections := rfl

theorem markClosed_connVars (st : ServerState) (c : Nat) :
    (markClosed st c).connVars = st.connVars := rfl

theorem markClosed_log (st : ServerState) (c : Nat) :
    (markClosed st c).log = st.log := rfl

theorem getVars_markClosed (st : ServerState) (c c2 : Nat) :
    getVars (markClosed st c) c2 = getVars st c2 := rfl

theorem setAdd_ne_nil (l : List Nat) (c : Nat) : setAdd l c ≠ [] := by
  unfold setAdd
  by_cases h : c ∈ l
  · rw [if_pos h]
    intro hnil
    rw [hnil] at h
    cases h
  · rw [if_neg h]
    simp

theorem mem_setAdd_self (l : List Nat) (c : Nat) : c ∈ setAdd l c := by
  unfold setAdd
  by_cases h : c ∈ l
  · rw [if_pos h]; exact h
  · rw [if_neg h]; simp

theorem mem_setAdd_of_mem (l : List Nat) (c x : Nat) (h : x ∈ l) : x ∈ setAdd l c := by
  unfold setAdd
  by_cases hc : c ∈ l
  · rw [if_pos hc]; exact h
  · rw [if_neg hc]; simp [h]

theorem joinRegister_lookup_self (reg : List (String × List Nat)) (s : String) (c : Nat) :
    assocLookup (joinRegister reg s c) s
      = some (setAdd ((assocLookup reg s).getD []) c) := by
  unfold joinRegister
  by_cases h : (assocLookup reg s).isSome = true
  · rw [if_pos h, assocLookup_regSet_self]
  · rw [if_neg h, assocLookup_regSet_self, assocLookup_regSet_self]
    cases hx : assocLookup reg s
    · rfl
    · rw [hx] at h; simp at h

theorem joinRegister_lookup_ne (reg : List (String × List Nat)) (s sid2 : String)
    (c : Nat) (h : sid2 ≠ s) :
    assocLookup (joinRegister reg s c) sid2 = assocLookup reg sid2 := by
  unfold joinRegister
  by_cases hs : (assocLookup reg s).isSome = true
  · rw [if_pos hs, assocLookup_regSet_ne _ _ _ _ h]
  · rw [if_neg hs, assocLookup_regSet_ne _ _ _ _ h, assocLookup_regSet_ne _ _ _ _ h]

theorem leaveRemove_lookup_ne (reg : List (String × List Nat)) (s sid2 : String)
    (c : Nat) (h : sid2 ≠ s) :
    assocLookup (leaveRemove reg s c) sid2 = assocLookup reg sid2 := by
  unfold leaveRemove
  split
  next conns heq =>
    by_cases hz : (setDel conns c).length = 0
    · rw [if_pos hz, assocLookup_regDelete_ne _ _ h]
    · rw [if_neg hz, assocLookup_regSet_ne _ _ _ _ h]
  next heq => rfl

theorem leaveRemove_lookup_self_none (reg : List (String × List Nat)) (s : String)
    (c : Nat) (hx : assocLookup reg s = none) :
    assocLookup (leaveRemove reg s c) s = none := by
  unfold leaveRemove
  simp only [hx]

theorem leaveRemove_lookup_self_some (reg : List (String × List Nat)) (s : String)
    (c : Nat) (conns : List Nat) (hx : assocLookup reg s = some conns) :
    assocLookup (leaveRemove reg s c) s
      = if (setDel conns c).length = 0 then none else some (setDel conns c) := by
  unfold leaveRemove
  simp only [hx]
  by_cases hz : (setDel conns c).length = 0
  · rw [if_pos hz, if_pos hz, assocLookup_regDelete_self]
  · rw [if_neg hz, if_neg hz, assocLookup_regSet_self]

theorem getVars_broadcast (st : ServerState) (sid : String) (m : WireMsg)
    (ex : Option Nat) (c2 : Nat) : getVars (broadcast st sid m ex) c2 = getVars st c2 := by
  unfold getVars
  rw [broadcast_connVars]

theorem getVars_joinFinish (st : ServerState) (s : String) (c c2 : Nat) :
    getVars (joinFinish st s c) c2 = getVars st c2 := rfl

theorem getVars_leaveFinish (st : ServerState) (s : String) (c c2 : Nat) :
    getVars (leaveFinish st s c) c2 = getVars st c2 := rfl

/-!
Invariants of the router state.
-/

/-- Every group stored in the Connection Registry is nonempty. -/
def registryOk (st : ServerState) : Prop :=
  ∀ (sid : String) (l : List Nat),
    assocLookup st.activeConnections sid = some l → l ≠ []

/-- A truthy currentSessionId closure variable always comes with a truthy
userId closure variable, because join-session sets the anonymous
fallback. -/
def connVarsOk (st : ServerState) : Prop :=
  ∀ c : Nat, truthyOpt (getVars st c).currentSessionId = true →
    truthyOpt (getVars st c).userId = true

theorem registryOk_of_eq {st1 st2 : ServerState}
    (he : st2.activeConnections = st1.activeConnections) (h : registryOk st1) :
    registryOk st2 := by
  intro sid l hl
  rw [he] at hl
  exact h sid l hl

theorem joinFinish_activeConnections (st : ServerState) (s : String) (c : Nat) :
    (joinFinish st s c).activeConnections = joinRegister st.activeConnections s c := rfl

theorem leaveFinish_activeConnections (st : ServerState) (s : String) (c : Nat) :
    (leaveFinish st s c).activeConnections = leaveRemove st.activeConnections s c := rfl

theorem registryOk_joinFinish {st : ServerState} (s : String) (c : Nat)
    (h : registryOk st) : registryOk (joinFinish st s c) := by
  intro sid l hl
  rw [joinFinish_activeConnections] at hl
  by_cases h2 : sid = s
  · subst h2
    rw [joinRegister_lookup_self] at hl
    cases hl
    exact setAdd_ne_nil _ _
  · rw [joinRegister_lookup_ne _ _ _ _ h2] at hl
    exact h sid l hl

theorem registryOk_leaveFinish {st : ServerState} (s : String) (c : Nat)
    (h : registryOk st) : registryOk (leaveFinish st s c) := by
  intro sid l hl
  rw [leaveFinish_activeConnections] at hl
  by_cases h2 : sid = s
  · subst h2
    cases hx : assocLookup st.activeConnections sid with
    | none =>
      rw [leaveRemove_lookup_self_none _ _ _ hx] at hl
      cases hl
    | some conns =>
      rw [leaveRemove_lookup_self_some _ _ _ _ hx] at hl
      by_cases hz : (setDel conns c).length = 0
      · rw [if_pos hz] at hl
        cases hl
      · rw [if_neg hz] at hl
        cases hl
        intro hnil
        rw [hnil] at hz
        simp at hz
  · rw [leaveRemove_lookup_ne _ _ _ _ h2] at hl
    exact h sid l hl

theorem registryOk_handleJoinSession (st : ServerState) (c : Nat)
    (sid uid : Option String) (t : Nat) (h : registryOk st) :
    registryOk (handleJoinSession st c sid uid t) := by
  cases sid with
  | none => exact registryOk_of_eq rfl h
  | some s =>
    by_cases hs : s = ("")
    · simp only [handleJoinSession, if_pos hs]
      exact registryOk_of_eq rfl h
    · simp only [handleJoinSession, if_neg hs]
      apply registryOk_of_eq (broadcast_activeConnections _ _ _ _)
      apply registryOk_joinFinish s c
      exact registryOk_of_eq rfl h

theorem registryOk_handleEditorChange (st : ServerState) (c : Nat)
    (code fp : String) (t : Nat) (h : registryOk st) :
    registryOk (handleEditorChange st c code fp t) := by
  unfold handleEditorChange
  split
  next s heq =>
    by_cases hs : s = ("")
    · rw [if_pos hs]
      exact h
    · rw [if_neg hs]
      exact registryOk_of_eq (broadcast_activeConnections _ _ _ _) h
  next heq => exact h

theorem registryOk_handleCursorMove (st : ServerState) (c : Nat)
    (pos fp : String) (t : Nat) (h : registryOk st) :
    registryOk (handleCursorMove st c pos fp t) := by
  unfold handleCursorMove
  split
  next s heq =>
    by_cases hs : s = ("")
    · rw [if_pos hs]
      exact h
    · rw [if_neg hs]
      exact registryOk_of_eq (broadcast_activeConnections _ _ _ _) h
  next heq => exact h

theorem registryOk_leaveCore (st : ServerState) (c : Nat) (t : Nat)
    (h : registryOk st) : registryOk (leaveCore st c t) := by
  unfold leaveCore
  split
  next s heq =>
    by_cases hs : s = ("")
    · rw [if_pos hs]
      exact h
    · rw [if_neg hs]
      apply registryOk_leaveFinish s c
      exact registryOk_of_eq (broadcast_activeConnections _ _ _ _) h
  next heq => exact h

theorem registryOk_handleClose (st : ServerState) (c : Nat) (t : Nat)
    (h : registryOk st) : registryOk (handleClose st c t) := by
  unfold handleClose
  split
  next heq => exact registryOk_of_eq rfl h
  next s heq =>
    by_cases hs : s = ("")
    · rw [if_pos hs]
      exact registryOk_of_eq rfl h
    · rw [if_neg hs]
      split
      next heq2 => exact registryOk_of_eq rfl h
      next u heq2 =>
        by_cases hu : u = ("")
        · rw [if_pos hu]
          exact registryOk_of_eq rfl h
        · rw [if_neg hu]
          apply registryOk_of_eq (broadcast_activeConnections _ _ _ _)
          apply registryOk_leaveFinish s c
          exact registryOk_of_eq rfl h

theorem registryOk_step (st : ServerState) (e : Event) (h : registryOk st) :
    registryOk (step st e) := by
  cases e with
  | message c m t =>
    cases m with
    | joinSession sid uid => exact registryOk_handleJoinSession st c sid uid t h
    | editorChange code fp => exact registryOk_handleEditorChange st c code fp t h
    | cursorMove pos fp => exact registryOk_handleCursorMove st c pos fp t h
    | leaveSession => exact registryOk_of_eq rfl (registryOk_leaveCore st c t h)
    | malformed => exact h
  | close c t => exact registryOk_handleClose st c t h

theorem registryOk_runEvents (evs : List Event) :
    ∀ st : ServerState, registryOk st → registryOk (runEvents st evs) := by
  induction evs with
  | nil => intro st h; exact h
  | cons e t ih =>
    intro st h
    exact ih (step st e) (registryOk_step st e h)

theorem registryOk_init : registryOk initServerState := by
  intro sid l hl
  cases hl

theorem truthyOpt_joinUserId (uid : Option String) :
    truthyOpt (some (joinUserId uid)) = true := by
  cases uid with
  | none => decide
  | some u =>
    by_cases hu : u = ("")
    · simp only [joinUserId, if_pos hu]
      decide
    · simp only [joinUserId, if_neg hu]
      simp [truthyOpt, hu]

theorem connVarsOk_of_vars_eq {st1 st2 : ServerState}
    (he : ∀ c : Nat, getVars st2 c = getVars st1 c) (h : connVarsOk st1) :
    connVarsOk st2 := by
  intro c hc
  rw [he c] at hc ⊢
  exact h c hc

theorem getVars_leaveCore (st : ServerState) (c : Nat) (t : Nat) (c2 : Nat) :
    getVars (leaveCore st c t) c2 = getVars st c2 := by
  unfold leaveCore
  split
  next s heq =>
    by_cases hs : s = ("")
    · rw [if_pos hs]
    · rw [if_neg hs, getVars_leaveFinish, getVars_broadcast]
  next heq => rfl

theorem getVars_handleClose (st : ServerState) (c : Nat) (t : Nat) (c2 : Nat) :
    getVars (handleClose st c t) c2 = getVars st c2 := by
  unfold handleClose
  split
  next heq => rfl
  next s heq =>
    by_cases hs : s = ("")
    · rw [if_pos hs]
      rfl
    · rw [if_neg hs]
      split
      next heq2 => rfl
      next u heq2 =>
        by_cases hu : u = ("")
        · rw [if_pos hu]
          rfl
        · rw [if_neg hu, getVars_broadcast, getVars_leaveFinish, getVars_markClosed]

theorem connVarsOk_handleJoinSession (st : ServerState) (c : Nat)
    (sid uid : Option String) (t : Nat) (h : connVarsOk st) :
    connVarsOk (handleJoinSession st c sid uid t) := by
  have hvar : ∀ c2 : Nat,
      getVars (handleJoinSession st c sid uid t) c2
        = if c2 = c then
            (match sid with
             | some s => ⟨some s, some (joinUserId uid)⟩
             | none => (⟨none, some (joinUserId uid)⟩ : ConnVars))
          else getVars st c2 := by
    intro c2
    by_cases hcc : c2 = c
    · rw [if_pos hcc]
      subst hcc
      cases sid with
      | none => exact getVars_setVars_self st c2 _
      | some s =>
        by_cases hs : s = ("")
        · simp only [handleJoinSession, if_pos hs]
          exact getVars_setVars_self st c2 _
        · simp only [handleJoinSession, if_neg hs]
          rw [getVars_broadcast, getVars_joinFinish]
          exact getVars_setVars_self st c2 _
    · rw [if_neg hcc]
      cases sid with
      | none => exact getVars_setVars_ne st c c2 _ hcc
      | some s =>
        by_cases hs : s = ("")
        · simp only [handleJoinSession, if_pos hs]
          exact getVars_setVars_ne st c c2 _ hcc
        · simp only [handleJoinSession, if_neg hs]
          rw [getVars_broadcast, getVars_joinFinish]
          exact getVars_setVars_ne st c c2 _ hcc
  intro c2 hc2
  rw [hvar c2] at hc2 ⊢
  by_cases hcc : c2 = c
  · rw [if_pos hcc] at hc2 ⊢
    cases sid with
    | none => exact truthyOpt_joinUserId uid
    | some s => exact truthyOpt_joinUserId uid
  · rw [if_neg hcc] at hc2 ⊢
    exact h c2 hc2

theorem connVarsOk_handleLeaveSession (st : ServerState) (c : Nat) (t : Nat)
    (h : connVarsOk st) : connVarsOk (handleLeaveSession st c t) := by
  intro c2 hc2
  unfold handleLeaveSession at hc2 ⊢
  by_cases hcc : c2 = c
  · subst hcc
    rw [getVars_setVars_self] at hc2
    simp [truthyOpt] at hc2
  · rw [getVars_setVars_ne _ _ _ _ hcc, getVars_leaveCore] at hc2 ⊢
    exact h c2 hc2

theorem connVarsOk_step (st : ServerState) (e : Event) (h : connVarsOk st) :
    connVarsOk (step st e) := by
  cases e with
  | message c m t =>
    cases m with
    | joinSession sid uid => exact connVarsOk_handleJoinSession st c sid uid t h
    | editorChange code fp =>
      apply connVarsOk_of_vars_eq _ h
      intro c2
      show getVars (handleEditorChange st c code fp t) c2 = getVars st c2
      unfold handleEditorChange
      split
      next s heq =>
        by_cases hs : s = ("")
        · rw [if_pos hs]
        · rw [if_neg hs, getVars_broadcast]
      next heq => rfl
    | cursorMove pos fp =>
      apply connVarsOk_of_vars_eq _ h
      intro c2
      show getVars (handleCursorMove st c pos fp t) c2 = getVars st c2
      unfold handleCursorMove
      split
      next s heq =>
        by_cases hs : s = ("")
        · rw [if_pos hs]
        · rw [if_neg hs, getVars_broadcast]
      next heq => rfl
    | leaveSession => exact connVarsOk_handleLeaveSession st c t h
    | malformed => exact h
  | close c t =>
    apply connVarsOk_of_vars_eq _ h
    intro c2
    exact getVars_handleClose st c t c2

theorem connVarsOk_runEvents (evs : List Event) :
    ∀ st : ServerState, connVarsOk st → connVarsOk (runEvents st evs) := by
  induction evs with
  | nil => intro st h; exact h
  | cons e t ih =>
    intro st h
    exact ih (step st e) (connVarsOk_step st e h)

theorem connVarsOk_init : connVarsOk initServerState := by
  intro c hc
  simp [getVars, assocLookup, truthyOpt, initServerState] at hc

/-!
Claim C2.
-/

/-- C2: after processing any sequence of connection events from the
initial state, a session identifier is a key of the Connection Registry
map if and only if its group is nonempty; and in any state, a
leave-session processed by the sole member of its truthy current session
deletes the group entry itself. -/
theorem registry_key_iff_group_nonempty :
    (∀ (evs : List Event) (sid : String),
      regHas (runEvents initServerState evs) sid = true
        ↔ groupOf (runEvents initServerState evs) sid ≠ [])
  ∧ (∀ (st : ServerState) (c : Nat) (sid : String) (t : Nat),
      (getVars st c).currentSessionId = some sid → sid ≠ ("") →
      assocLookup st.activeConnections sid = some [c] →
      assocLookup (step st (.message c .leaveSession t)).activeConnections sid
        = none) := by
  constructor
  · intro evs sid
    have hok : registryOk (runEvents initServerState evs) :=
      registryOk_runEvents evs initServerState registryOk_init
    unfold regHas groupOf
    cases hx : assocLookup (runEvents initServerState evs).activeConnections sid with
    | none => simp
    | some l =>
      exact ⟨fun _ => hok sid l hx, fun _ => rfl⟩
  · intro st c sid t hcs hs hl
    show assocLookup (handleLeaveSession st c t).activeConnections sid = none
    unfold handleLeaveSession
    rw [setVars_activeConnections]
    unfold leaveCore
    simp only [hcs]
    rw [if_neg hs, leaveFinish_activeConnections, broadcast_activeConnections]
    rw [leaveRemove_lookup_self_some _ _ _ _ hl]
    have h1 : setDel [c] c = [] := by simp [setDel]
    rw [h1]
    simp

/-- C2 witness: after one join the session is a key with a nonempty
group, and the sole member leaving deletes the entry. -/
theorem registry_key_iff_group_nonempty_witness :
    (regHas (runEvents initServerState
        [.message 1 (.joinSession (some ("s1")) (some ("u1"))) 0]) ("s1") = true
      ↔ groupOf (runEvents initServerState
        [.message 1 (.joinSession (some ("s1")) (some ("u1"))) 0]) ("s1") ≠ [])
  ∧ assocLookup (step (runEvents initServerState
        [.message 1 (.joinSession (some ("s1")) (some ("u1"))) 0])
        (.message 1 .leaveSession 1)).activeConnections ("s1") = none := by
  constructor
  · exact registry_key_iff_group_nonempty.1
      [.message 1 (.joinSession (some ("s1")) (some ("u1"))) 0] ("s1")
  · exact registry_key_iff_group_nonempty.2
      (runEvents initServerState [.message 1 (.joinSession (some ("s1")) (some ("u1"))) 0])
      1 ("s1") 1 (by decide) (by decide) (by decide)

/-!
Claim C8.
-/

/-- C8: an editor-change or cursor-move message processed while the
connection is unjoined (its currentSessionId closure variable is not
truthy) leaves the server state entirely unchanged: no broadcast is
delivered, the Connection Registry is untouched, no error goes back to
the sender, and later messages are processed from the same state. -/
theorem unjoined_editor_messages_ignored (st : ServerState) (c : Nat)
    (code fp pos fp2 : String) (t t2 : Nat)
    (h : truthyOpt (getVars st c).currentSessionId = false) :
    step st (.message c (.editorChange code fp) t) = st
  ∧ step st (.message c (.cursorMove pos fp2) t2) = st := by
  have hcs : (getVars st c).currentSessionId = none
      ∨ (getVars st c).currentSessionId = some ("") := by
    cases hx : (getVars st c).currentSessionId with
    | none => exact Or.inl rfl
    | some s =>
      right
      rw [hx] at h
      simp [truthyOpt] at h
      rw [h]
  constructor
  · show handleEditorChange st c code fp t = st
    unfold handleEditorChange
    rcases hcs with hx | hx <;> simp [hx]
  · show handleCursorMove st c pos fp2 t2 = st
    unfold handleCursorMove
    rcases hcs with hx | hx <;> simp [hx]

/-- A state in which connection one has joined and then left a session,
so its closure variables are cleared. -/
def unjoinedStateW : ServerState :=
  runEvents initServerState
    [.message 1 (.joinSession (some ("s1")) (some ("u1"))) 0, .message 1 .leaveSession 1]

/-- C8 witness: after a join and a leave, editor-change and cursor-move
from the same connection change nothing. -/
theorem unjoined_editor_messages_ignored_witness :
    step unjoinedStateW (.message 1 (.editorChange ("x") ("a.ts")) 9) = unjoinedStateW
  ∧ step unjoinedStateW (.message 1 (.cursorMove ("p") ("a.ts")) 9) = unjoinedStateW :=
  unjoined_editor_messages_ignored unjoinedStateW 1 ("x") ("a.ts") ("p") ("a.ts") 9 9
    (by decide)

/-!
Claim C4.
-/

/-- Every delivery a broadcast call appends carries the broadcast
message. -/
theorem mem_broadcastDeliveries_msg {st : ServerState} {sid : String} {m : WireMsg}
    {ex : Option Nat} {x : Nat} {m2 : WireMsg}
    (h : (x, m2) ∈ broadcastDeliveries st sid m ex) : m2 = m := by
  unfold broadcastDeliveries at h
  split at h
  next heq => cases h
  next conns heq =>
    rcases List.mem_map.mp h with ⟨y, hy, hxy⟩
    cases hxy
    rfl

/-- C4 counterexample: after joining session A and then session B, the
connection is still a member of the group of A, refuting the part of the
claim that says it is no longer a member of the previous group. -/
theorem rejoin_counterexample :
    1 ∈ groupOf (runEvents initServerState
        [.message 1 (.joinSession (some ("A")) (some ("u"))) 0,
         .message 1 (.joinSession (some ("B")) (some ("u"))) 1]) ("A")
  ∧ (getVars (runEvents initServerState
        [.message 1 (.joinSession (some ("A")) (some ("u"))) 0,
         .message 1 (.joinSession (some ("B")) (some ("u"))) 1]) 1).currentSessionId
      = some ("B") := by decide

/-- C4 amended: processing join-session for a different truthy session B
while joined to session A replaces only the local association:
afterwards currentSessionId is B and the connection is a member of the
group of B, but it also remains a member of the group of A in the
registry, and no participant-left broadcast is emitted to anyone. -/
theorem rejoin_keeps_stale_membership (st : ServerState) (c : Nat) (a b : String)
    (uid : Option String) (t : Nat) (hab : a ≠ b) (hb : b ≠ (""))
    (hmem : c ∈ groupOf st a) :
    (getVars (step st (.message c (.joinSession (some b) uid) t)) c).currentSessionId
        = some b
  ∧ c ∈ groupOf (step st (.message c (.joinSession (some b) uid) t)) b
  ∧ c ∈ groupOf (step st (.message c (.joinSession (some b) uid) t)) a
  ∧ (∀ (x : Nat) (u : Option String) (ts : Nat),
      (x, WireMsg.participantLeft u ts)
          ∈ (step st (.message c (.joinSession (some b) uid) t)).log
        → (x, WireMsg.participantLeft u ts) ∈ st.log) := by
  have hstep : step st (.message c (.joinSession (some b) uid) t)
      = broadcast (joinFinish (setVars st c ⟨some b, some (joinUserId uid)⟩) b c) b
          (.participantJoined (some (joinUserId uid)) t) (some c) := by
    show handleJoinSession st c (some b) uid t = _
    simp only [handleJoinSession]
    rw [if_neg hb]
  rw [hstep]
  refine ⟨?_, ?_, ?_, ?_⟩
  · rw [getVars_broadcast, getVars_joinFinish, getVars_setVars_self]
  · unfold groupOf
    rw [broadcast_activeConnections, joinFinish_activeConnections,
      joinRegister_lookup_self]
    exact mem_setAdd_self _ c
  · unfold groupOf
    rw [broadcast_activeConnections, joinFinish_activeConnections,
      joinRegister_lookup_ne _ _ _ _ hab, setVars_activeConnections]
    exact hmem
  · intro x u ts hx
    rw [broadcast_log] at hx
    rcases List.mem_append.mp hx with h1 | h2
    · exact h1
    · exact WireMsg.noConfusion (mem_broadcastDeliveries_msg h2)

/-- C4 witness: a connection joined to A stays in the group of A after
joining B. -/
theorem rejoin_keeps_stale_membership_witness :
    1 ∈ groupOf (step (runEvents initServerState
        [.message 1 (.joinSession (some ("A")) (some ("u"))) 0])
        (.message 1 (.joinSession (some ("B")) (some ("u"))) 1)) ("A") :=
  (rejoin_keeps_stale_membership
    (runEvents initServerState [.message 1 (.joinSession (some ("A")) (some ("u"))) 0])
    1 ("A") ("B") (some ("u")) 1 (by decide) (by decide) (by decide)).2.2.1

/-!
Claim C3.
-/

/-- A reachable state whose session A group holds a stale closed member,
left behind by a re-join to B followed by a transport close. -/
def staleGroupStateW : ServerState :=
  runEvents initServerState
    [.message 2 (.joinSession (some ("A")) (some ("u2"))) 0,
     .message 2 (.joinSession (some ("B")) (some ("u2"))) 1,
     .close 2 2,
     .message 1 (.joinSession (some ("A")) (some ("u1"))) 3]

/-- C3 counterexample: connection two is a member of the group of A and
is not the excluded connection, yet a broadcast to A excluding one leaves
the state unchanged, delivering nothing - refuting the part of the claim
that says every other member of the group receives the message. -/
theorem broadcast_counterexample :
    2 ∈ groupOf staleGroupStateW ("A")
  ∧ (2 : Nat) ≠ 1
  ∧ broadcast staleGroupStateW ("A")
      (.editorChange (some ("u1")) ("x") ("a.ts") 4) (some 1) = staleGroupStateW := by
  decide

/-- C3 amended: broadcast never delivers to the excluded connection,
delivers to every other member of the group whose transport is open
(readyState OPEN), appends exactly those deliveries to the log, and when
no group exists for the session id it returns the state unchanged. -/
theorem broadcast_contract (st : ServerState) (sid : String) (m : WireMsg) (c : Nat) :
    (assocLookup st.activeConnections sid = none → broadcast st sid m (some c) = st)
  ∧ (∀ x : Nat, (x, m) ∈ broadcastDeliveries st sid m (some c) → x ≠ c)
  ∧ (∀ x : Nat, x ∈ groupOf st sid → x ≠ c → isOpen st x = true →
      (x, m) ∈ broadcastDeliveries st sid m (some c))
  ∧ (broadcast st sid m (some c)).log
      = st.log ++ broadcastDeliveries st sid m (some c) := by
  refine ⟨?_, ?_, ?_, broadcast_log st sid m (some c)⟩
  · intro h
    unfold broadcast
    simp only [h]
  · intro x hx
    unfold broadcastDeliveries at hx
    split at hx
    next heq => cases hx
    next conns heq =>
      rcases List.mem_map.mp hx with ⟨y, hy, hxy⟩
      cases hxy
      have hp := (List.mem_filter.mp hy).2
      have h1 : decide (some x ≠ some c) = true := by
        cases hb : decide (some x ≠ some c)
        · rw [hb] at hp
          simp at hp
        · rfl
      have h2 : some x ≠ some c := of_decide_eq_true h1
      intro hyc
      exact h2 (by rw [hyc])
  · intro x hxg hxc hxo
    unfold broadcastDeliveries
    split
    next heq =>
      unfold groupOf at hxg
      rw [heq] at hxg
      cases hxg
    next conns heq =>
      apply List.mem_map.mpr
      refine ⟨x, ?_, rfl⟩
      apply List.mem_filter.mpr
      constructor
      · unfold groupOf at hxg
        rw [heq] at hxg
        exact hxg
      · rw [hxo]
        have hd : decide (some x ≠ some c) = true :=
          decide_eq_true (fun hh => hxc (Option.some.inj hh))
        rw [hd]
        rfl

/-- A reachable state with two open members in one session group. -/
def twoMemberStateW : ServerState :=
  runEvents initServerState
    [.message 1 (.joinSession (some ("s1")) (some ("u1"))) 0,
     .message 2 (.joinSession (some ("s1")) (some ("u2"))) 1]

/-- C3 witness: the open non excluded member of the group receives the
broadcast message. -/
theorem broadcast_contract_witness :
    (2, WireMsg.editorChange (some ("u1")) ("x") ("a.ts") 9)
      ∈ broadcastDeliveries twoMemberStateW ("s1")
          (WireMsg.editorChange (some ("u1")) ("x") ("a.ts") 9) (some 1) :=
  (broadcast_contract twoMemberStateW ("s1")
      (WireMsg.editorChange (some ("u1")) ("x") ("a.ts") 9) 1).2.2.1 2
    (by decide) (by decide) (by decide)

/-!
Claim C5.
-/

theorem handleClose_none (st : ServerState) (c : Nat) (t : Nat)
    (hcs : (getVars st c).currentSessionId = none) :
    handleClose st c t = markClosed st c := by
  unfold handleClose
  simp only [hcs]

theorem leaveCore_none (st : ServerState) (c : Nat) (t : Nat)
    (hcs : (getVars st c).currentSessionId = none) :
    leaveCore st c t = st := by
  unfold leaveCore
  simp only [hcs]

theorem handleClose_empty (st : ServerState) (c : Nat) (t : Nat) (s : String)
    (hcs : (getVars st c).currentSessionId = some s) (hs : s = ("")) :
    handleClose st c t = markClosed st c := by
  unfold handleClose
  simp only [hcs]
  rw [if_pos hs]

theorem leaveCore_empty (st : ServerState) (c : Nat) (t : Nat) (s : String)
    (hcs : (getVars st c).currentSessionId = some s) (hs : s = ("")) :
    leaveCore st c t = st := by
  unfold leaveCore
  simp only [hcs]
  rw [if_pos hs]

theorem handleClose_active (st : ServerState) (c : Nat) (t : Nat) (s u : String)
    (hcs : (getVars st c).currentSessionId = some s) (hs : s ≠ (""))
    (huid : (getVars st c).userId = some u) (hu : u ≠ ("")) :
    handleClose st c t
      = broadcast (leaveFinish (markClosed st c) s c) s
          (.participantLeft (some u) t) (some c) := by
  unfold handleClose
  simp only [hcs]
  rw [if_neg hs]
  simp only [huid]
  rw [if_neg hu]

theorem leaveCore_active (st : ServerState) (c : Nat) (t : Nat) (s : String)
    (hcs : (getVars st c).currentSessionId = some s) (hs : s ≠ ("")) :
    leaveCore st c t
      = leaveFinish (broadcast st s
          (.participantLeft (getVars st c).userId t) (some c)) s c := by
  unfold leaveCore
  simp only [hcs]
  rw [if_neg hs]

theorem leaveFinish_log (st : ServerState) (s : String) (c : Nat) :
    (leaveFinish st s c).log = st.log := rfl

theorem setDel_eq_nil_mem (c : Nat) :
    ∀ l : List Nat, setDel l c = [] → ∀ x ∈ l, x = c := by
  intro l
  induction l with
  | nil =>
    intro _ x hx
    cases hx
  | cons a rest ih =>
    intro h x hx
    by_cases ha : a = c
    · rw [setDel, if_pos ha] at h
      rcases List.mem_cons.mp hx with hxa | hxr
      · rw [hxa, ha]
      · exact ih h x hxr
    · rw [setDel, if_neg ha] at h
      cases h

theorem setDel_filter (c : Nat) (p : Nat → Bool) :
    ∀ l : List Nat,
      (setDel l c).filter p = l.filter (fun x => decide (x ≠ c) && p x) := by
  intro l
  induction l with
  | nil => rfl
  | cons a rest ih =>
    by_cases ha : a = c
    · simp [setDel, ha, ih, List.filter_cons]
    · simp [setDel, ha, ih, List.filter_cons]

theorem isOpen_markClosed_ne (st : ServerState) (c x : Nat) (h : x ≠ c) :
    isOpen (markClosed st c) x = isOpen st x := by
  unfold isOpen markClosed
  by_cases hc : c ∈ st.closedConns
  · rw [if_pos hc]
  · rw [if_neg hc]
    have hiff : (x ∈ st.closedConns ++ [c]) ↔ x ∈ st.closedConns := by
      simp [List.mem_append, h]
    rw [decide_eq_decide.mpr hiff]

theorem deliveries_close_eq_leave (st : ServerState) (s : String) (c : Nat)
    (m : WireMsg) :
    broadcastDeliveries (leaveFinish (markClosed st c) s c) s m (some c)
      = broadcastDeliveries st s m (some c) := by
  unfold broadcastDeliveries
  have hls : (leaveFinish (markClosed st c) s c).activeConnections
      = leaveRemove st.activeConnections s c := rfl
  rw [hls]
  cases hx : assocLookup st.activeConnections s with
  | none =>
    rw [leaveRemove_lookup_self_none _ _ _ hx]
  | some conns =>
    rw [leaveRemove_lookup_self_some _ _ _ _ hx]
    by_cases hz : (setDel conns c).length = 0
    · rw [if_pos hz]
      have hnil : setDel conns c = [] := List.length_eq_zero.mp hz
      have hall := setDel_eq_nil_mem c conns hnil
      have hfil : conns.filter
          (fun cc => decide (some cc ≠ some c) && isOpen st cc) = [] := by
        apply List.filter_eq_nil_iff.mpr
        intro a ha
        have haa : a = c := hall a ha
        subst haa
        simp
      show ([] : List (Nat × WireMsg))
        = (conns.filter (fun cc => decide (some cc ≠ some c) && isOpen st cc)).map
            (fun cc => (cc, m))
      rw [hfil]
      rfl
    · rw [if_neg hz]
      show ((setDel conns c).filter
          (fun cc => decide (some cc ≠ some c)
            && isOpen (leaveFinish (markClosed st c) s c) cc)).map (fun cc => (cc, m))
        = (conns.filter (fun cc => decide (some cc ≠ some c) && isOpen st cc)).map
            (fun cc => (cc, m))
      congr 1
      rw [setDel_filter]
      have hfun : (fun x => decide (x ≠ c)
            && (decide (some x ≠ some c) && isOpen (leaveFinish (markClosed st c) s c) x))
          = (fun cc => decide (some cc ≠ some c) && isOpen st cc) := by
        funext x
        by_cases hxc : x = c
        · subst hxc
          simp
        · have h1 : decide (x ≠ c) = true := decide_eq_true hxc
          have h2 : isOpen (leaveFinish (markClosed st c) s c) x = isOpen st x := by
            have h3 : isOpen (leaveFinish (markClosed st c) s c) x
                = isOpen (markClosed st c) x := rfl
            rw [h3, isOpen_markClosed_ne st c x hxc]
          rw [h1, h2]
          simp
      rw [hfun]

theorem close_leave_agree (st : ServerState) (c : Nat) (t : Nat)
    (hv : connVarsOk st) :
    (handleClose st c t).activeConnections
        = (handleLeaveSession st c t).activeConnections
      ∧ (handleClose st c t).log = (handleLeaveSession st c t).log := by
  have hLa : (handleLeaveSession st c t).activeConnections
      = (leaveCore st c t).activeConnections := rfl
  have hLl : (handleLeaveSession st c t).log = (leaveCore st c t).log := rfl
  cases hcs : (getVars st c).currentSessionId with
  | none =>
    rw [hLa, hLl, handleClose_none st c t hcs, leaveCore_none st c t hcs]
    exact ⟨rfl, rfl⟩
  | some s =>
    by_cases hs : s = ("")
    · rw [hLa, hLl, handleClose_empty st c t s hcs hs, leaveCore_empty st c t s hcs hs]
      exact ⟨rfl, rfl⟩
    · have hut : truthyOpt (getVars st c).userId = true := by
        apply hv c
        rw [hcs]
        exact decide_eq_true hs
      cases huid : (getVars st c).userId with
      | none =>
        rw [huid] at hut
        simp [truthyOpt] at hut
      | some u =>
        have hu : u ≠ ("") := by
          rw [huid] at hut
          simpa [truthyOpt] using hut
        rw [hLa, hLl, handleClose_active st c t s u hcs hs huid hu,
          leaveCore_active st c t s hcs hs, huid]
        constructor
        · rw [broadcast_activeConnections, leaveFinish_activeConnections,
            leaveFinish_activeConnections, broadcast_activeConnections,
            markClosed_activeConnections]
        · simp only [broadcast_log, leaveFinish_log, markClosed_log]
          rw [deliveries_close_eq_leave]

theorem close_after_leave (st : ServerState) (c : Nat) (t t2 : Nat) :
    (handleClose (handleLeaveSession st c t) c t2).activeConnections
        = (handleLeaveSession st c t).activeConnections
      ∧ (handleClose (handleLeaveSession st c t) c t2).log
        = (handleLeaveSession st c t).log := by
  have hv : (getVars (handleLeaveSession st c t) c).currentSessionId = none := by
    unfold handleLeaveSession
    rw [getVars_setVars_self]
  rw [handleClose_none _ c t2 hv]
  exact ⟨rfl, rfl⟩

/-- C5: from every reachable state, processing the transport close of a
connection produces the same Connection Registry and the same delivery
log as processing a leave-session message at the same instant - the same
participant-left broadcast reaches the remaining peers and the group is
deleted when it became empty - and a close that follows a leave-session
changes neither the registry nor the log again, so the membership is
released exactly once. -/
theorem close_equivalent_to_leave (evs : List Event) (c : Nat) (t t2 : Nat) :
    ((step (runEvents initServerState evs) (.close c t)).activeConnections
        = (step (runEvents initServerState evs)
            (.message c .leaveSession t)).activeConnections
      ∧ (step (runEvents initServerState evs) (.close c t)).log
        = (step (runEvents initServerState evs) (.message c .leaveSession t)).log)
  ∧ ((step (step (runEvents initServerState evs) (.message c .leaveSession t))
          (.close c t2)).activeConnections
        = (step (runEvents initServerState evs)
            (.message c .leaveSession t)).activeConnections
      ∧ (step (step (runEvents initServerState evs) (.message c .leaveSession t))
          (.close c t2)).log
        = (step (runEvents initServerState evs) (.message c .leaveSession t)).log) := by
  have hv : connVarsOk (runEvents initServerState evs) :=
    connVarsOk_runEvents evs initServerState connVarsOk_init
  exact ⟨close_leave_agree (runEvents initServerState evs) c t hv,
    close_after_leave (runEvents initServerState evs) c t t2⟩
